import Mathlib

/-!
Shallow embedding of the StorageAPI crate (a pluggable storage abstraction with
containers built on top of it) and proofs about the claims of its specification.

Machine integers (`usize`) are modelled as `Nat` with the word bound `USIZE`
made explicit wherever the Rust code can overflow or wrap.  Fallible Rust code
returns `Except`/`Option`.  Memory contents, where they matter, are modelled as
lists of bytes or of optional elements; heap interactions of the `Global`
storage are modelled as explicit event lists driven by an allocation oracle.
-/

/-- Number of values of a 64-bit `usize`. -/
def USIZE : Nat := 2 ^ 64

/-- Largest `usize` value. -/
def USIZE_MAX : Nat := USIZE - 1

/-- Largest `isize` value (the bound `core::alloc::Layout` enforces on sizes). -/
def ISIZE_MAX : Nat := 2 ^ 63 - 1

/-- Model of `core::alloc::Layout`: a (size, alignment) pair. -/
structure Layout where
  size : Nat
  align : Nat
deriving DecidableEq, Repr

/-- Model of `StorageAllocError`, the single allocation-failure error of the crate. -/
inductive AllocError where
  | storageAllocError
deriving DecidableEq, Repr

deriving instance DecidableEq for Except

/-- Model of `Layout::array::<T>(n)` for an element type of size `elemSize` and
alignment `elemAlign`: size is `n * elemSize`, failing on arithmetic overflow
past `isize::MAX`. -/
def layoutArray (elemSize elemAlign n : Nat) : Option Layout :=
  if n * elemSize ≤ ISIZE_MAX then some ⟨n * elemSize, elemAlign⟩ else none

/-! ## SlotStorage (src/slot_storage.rs)

A `SlotStorage` borrows an external byte buffer.  We model the buffer by its
base address `base` (the runtime address of `storage.as_ptr()`) and its length
`len`.  A handle is the `offset` field of `SlotStorageHandle`. -/

/-- Model of `<*const u8>::align_offset(align)` for a pointer whose address is
`base` and a power-of-two `align`: the smallest `o` with `(base + o) % align = 0`. -/
def alignOffset (base align : Nat) : Nat :=
  (align - base % align) % align

/-- Model of `SlotStorage::allocate` (src/slot_storage.rs lines 31-45):
computes `offset = align_offset(layout.align())` from the buffer base, fails if
it is `usize::MAX`, then computes `len.checked_sub(offset)` as the returned
usable size, failing if the offset lies past the end of the buffer.  The
returned pair is `(handle offset, usable size)`. -/
def slotAllocate (base len : Nat) (layout : Layout) : Except AllocError (Nat × Nat) :=
  let offset := alignOffset base layout.align
  if offset = USIZE_MAX then .error .storageAllocError
  else
    if offset ≤ len then .ok (offset, len - offset)
    else .error .storageAllocError

/-- Claim C3: `SlotStorage::allocate` is claimed to fail whenever the buffer
length remaining after the aligned offset is less than `layout.size()`.  The
code never compares the remaining length with `layout.size()`: on a 4-byte
buffer whose base is already aligned, a request of 100 bytes succeeds with
offset 0 and usable size 4, and indeed the result is independent of the
requested size. -/
theorem slotAllocate_ignores_requested_size :
    slotAllocate 0 4 ⟨100, 1⟩ = .ok (0, 4) ∧
    (4 : Nat) < (100 : Nat) ∧
    ∀ s : Nat, slotAllocate 0 4 ⟨s, 1⟩ = .ok (0, 4) := by
  refine ⟨by decide, by decide, ?_⟩
  intro s
  simp [slotAllocate, alignOffset, USIZE_MAX, USIZE]

/-! ## Rc (src/storage_rc.rs)

`Rc<T, S>` keeps a `RcInner<T> { strong: Cell<usize>, data: UnsafeCell<ManuallyDrop<T>> }`
in a single allocation made through `Box::new_in`, so the allocated layout is
`Layout::new::<RcInner<T>>()`.  We model the allocation's state together with
the events (allocation, value drop, deallocation) that the `Rc` code issues.
The non-`nightly` (default-feature) code paths are modelled. -/

/-- State of the single `RcInner` allocation shared by all clones of one `Rc`. -/
structure RcHeapState where
  /-- the value of the `strong: Cell<usize>` counter -/
  strong : Nat
  /-- the allocation has not been deallocated -/
  live : Bool
  /-- the `ManuallyDrop<T>` value has not been dropped or moved out -/
  valueInit : Bool
deriving DecidableEq, Repr

/-- Events issued by the `Rc` code against its storage and value. -/
inductive RcEvent where
  | allocEv (layout : Layout)
  | dropValueEv
  | deallocEv (layout : Layout)
deriving DecidableEq, Repr

/-- Model of `Rc::new_in` (src/storage_rc.rs lines 61-70): allocates a
`RcInner<T>` through `Box::new_in` (layout `innerLayout = Layout::new::<RcInner<T>>()`)
and initialises the strong counter with `Cell::new(0)`. -/
def rcNewIn (innerLayout : Layout) : RcHeapState × List RcEvent :=
  (⟨0, true, true⟩, [.allocEv innerLayout])

/-- Model of `Clone for Rc` (src/storage_rc.rs lines 110-128): increments the
strong counter (`usize` wrapping arithmetic in release mode). -/
def rcClone (st : RcHeapState) : RcHeapState :=
  { st with strong := (st.strong + 1) % USIZE }

/-- The `debug_assert_ne!(inner.strong.get(), usize::MAX)` checked by `Rc::clone`. -/
def rcCloneAssertOk (st : RcHeapState) : Bool :=
  st.strong != USIZE_MAX

/-- Model of `Drop for Rc` (non-nightly, src/storage_rc.rs lines 202-219):
decrements the strong counter (`usize` wrapping arithmetic in release mode);
if the counter reaches 0, drops the value in place and deallocates with
`Layout::new::<T>()` (`tLayout`, the layout of the value type alone). -/
def rcDrop (tLayout : Layout) (st : RcHeapState) : RcHeapState × List RcEvent :=
  let s := (st.strong + USIZE - 1) % USIZE
  if s = 0 then
    (⟨0, false, false⟩, [.dropValueEv, .deallocEv tLayout])
  else
    ({ st with strong := s }, [])

/-- The `debug_assert_ne!(inner.strong.get(), 0)` checked by `Drop for Rc`. -/
def rcDropAssertOk (st : RcHeapState) : Bool :=
  st.strong != 0

/-- Model of `Rc::into_inner` (src/storage_rc.rs lines 88-101): if the strong
counter differs from 1 it returns `None` with no side effect; otherwise it
reads the value out and deallocates with `Layout::new::<T>()` (`tLayout`).
The middle component records whether a value was extracted. -/
def rcIntoInner (tLayout : Layout) (st : RcHeapState) :
    RcHeapState × Option Unit × List RcEvent :=
  if st.strong ≠ 1 then (st, none, [])
  else ({ st with live := false, valueInit := false }, some (), [.deallocEv tLayout])

/-- Layout of `u32` on a 64-bit target: size 4, alignment 4. -/
def u32Layout : Layout := ⟨4, 4⟩

/-- Layout of `RcInner<u32>` on a 64-bit target: the struct holds a
`Cell<usize>` (size 8, align 8) and an `UnsafeCell<ManuallyDrop<u32>>`
(size 4, align 4), so its layout is size 16, alignment 8. -/
def rcInnerU32Layout : Layout := ⟨16, 8⟩

/-- Claim C1: the spec requires the strong count to be positive while any `Rc`
instance exists, each drop to decrement it exactly once, and the value drop
plus deallocation to happen exactly when it reaches 0.  The code initialises
the counter to 0 in `Rc::new_in`, so immediately after `new_in` one instance
exists while the count is 0; dropping that sole instance violates the code's
own `debug_assert_ne!(strong, 0)`, wraps the counter to `usize::MAX`, and
neither drops the value nor deallocates. -/
theorem rc_strong_count_init_bug :
    (rcNewIn rcInnerU32Layout).1.strong = 0 ∧
    rcDropAssertOk (rcNewIn rcInnerU32Layout).1 = false ∧
    (rcDrop u32Layout (rcNewIn rcInnerU32Layout).1).1.live = true ∧
    (rcDrop u32Layout (rcNewIn rcInnerU32Layout).1).1.valueInit = true ∧
    (rcDrop u32Layout (rcNewIn rcInnerU32Layout).1).2 = [] ∧
    (rcDrop u32Layout (rcNewIn rcInnerU32Layout).1).1.strong = USIZE_MAX := by
  refine ⟨rfl, rfl, ?_, ?_, ?_, ?_⟩ <;> decide

/-- Claim C2: the spec says `Rc::into_inner` returns `Some` exactly when the
`Rc` it is called on is the only remaining instance, and otherwise has no side
effects.  Because `Rc::new_in` initialises the strong counter to 0, the sole
instance produced by `new_in` has count 0 and `into_inner` (which tests
`strong == 1`) returns `None` for it; after one `clone` two instances exist
with count 1, and `into_inner` extracts the value and deallocates even though
another instance still references the allocation. -/
theorem rc_into_inner_off_by_one :
    (rcIntoInner u32Layout (rcNewIn rcInnerU32Layout).1).2.1 = none ∧
    (rcIntoInner u32Layout (rcNewIn rcInnerU32Layout).1).1 = (rcNewIn rcInnerU32Layout).1 ∧
    (rcIntoInner u32Layout (rcClone (rcNewIn rcInnerU32Layout).1)).2.1 = some () ∧
    (rcIntoInner u32Layout (rcClone (rcNewIn rcInnerU32Layout).1)).1.live = false := by
  refine ⟨?_, ?_, ?_, ?_⟩ <;> decide

/-- Claim C10: every deallocation issued by `Rc` is claimed to use the layout
of the combined `RcInner<T>` block that was allocated by `Rc::new_in`.  In the
code, `Rc::into_inner` and the default-feature `Drop` impl both pass
`Layout::new::<T>()` instead: for `T = u32` the allocation is made with the
`RcInner<u32>` layout (size 16, align 8) but deallocated with the `u32` layout
(size 4, align 4). -/
theorem rc_dealloc_layout_mismatch :
    (rcNewIn rcInnerU32Layout).2 = [.allocEv rcInnerU32Layout] ∧
    (rcIntoInner u32Layout ⟨1, true, true⟩).2.2 = [.deallocEv u32Layout] ∧
    (rcDrop u32Layout ⟨1, true, true⟩).2 = [.dropValueEv, .deallocEv u32Layout] ∧
    u32Layout ≠ rcInnerU32Layout := by
  refine ⟨rfl, ?_, ?_, ?_⟩ <;> decide

/-! ## Global (src/global_storage.rs)

`Global` delegates to the process heap.  We model one `allocate`/`realloc`
call by the list of heap effects it performs, driven by an oracle that decides
whether (and at which address) the underlying heap calls succeed.

Modelled from the spec: the process heap is an external collaborator
("allocate/realloc/free given size and alignment, may fail"); a failing heap
`realloc` leaves the old block in place and untouched, so a failed heap call
contributes no effect. -/

/-- Heap effects performed by `Global`. -/
inductive GlobalEvent where
  /-- a successful `alloc::alloc::alloc(layout)` returning `addr` -/
  | allocEv (layout : Layout) (addr : Nat)
  /-- a successful in-place/moving `alloc::alloc::realloc` to `newSize` bytes at `addr` -/
  | reallocEv (oldLayout : Layout) (newSize : Nat) (addr : Nat)
  /-- `alloc::alloc::dealloc` of the block at `addr` with `layout` -/
  | deallocEv (layout : Layout) (addr : Nat)
  /-- `copy_nonoverlapping` of `count` bytes from `src` to `dst` -/
  | copyEv (src dst count : Nat)
deriving DecidableEq, Repr

/-- Model of `Global::allocate` (src/global_storage.rs lines 23-31): zero-size
requests return the dangling handle `layout.dangling()` (address = alignment)
without consulting the heap; otherwise the heap is consulted (`allocOracle`:
a fresh address, or `none` for failure). -/
def globalAllocate (allocOracle : Option Nat) (layout : Layout) :
    List GlobalEvent × Except AllocError (Nat × Nat) :=
  if layout.size = 0 then ([], .ok (layout.align, 0))
  else
    match allocOracle with
    | some addr => ([.allocEv layout addr], .ok (addr, layout.size))
    | none => ([], .error .storageAllocError)

/-- Model of `Global::realloc` (src/global_storage.rs lines 59-114), used by
both `grow` and `shrink`.  `allocOracle` answers the inner `self.allocate`
call and `reallocOracle` the heap `realloc` call.  The error value carries the
old handle, exactly as the code returns `Err(old_alloc)`. -/
def globalRealloc (allocOracle reallocOracle : Option Nat)
    (oldLayout newLayout : Layout) (oldAlloc : Nat) :
    List GlobalEvent × Except Nat (Nat × Nat) :=
  match oldLayout.size, newLayout.size with
  | 0, 0 => ([], .ok (oldAlloc, 0))
  | 0, _ + 1 =>
    let ar := globalAllocate allocOracle newLayout
    match ar.2 with
    | .ok r => (ar.1, .ok r)
    | .error _ => (ar.1, .error oldAlloc)
  | _ + 1, 0 =>
    let ar := globalAllocate allocOracle newLayout
    match ar.2 with
    | .ok r => (ar.1 ++ [.deallocEv oldLayout oldAlloc], .ok r)
    | .error _ => (ar.1, .error oldAlloc)
  | _ + 1, _ + 1 =>
    if newLayout.align ≤ oldLayout.align then
      match reallocOracle with
      | some addr =>
        ([.reallocEv oldLayout newLayout.size addr], .ok (addr, newLayout.size))
      | none => ([], .error oldAlloc)
    else
      let ar := globalAllocate allocOracle newLayout
      match ar.2 with
      | .ok (newAlloc, _) =>
        (ar.1 ++ [.copyEv oldAlloc newAlloc oldLayout.size, .deallocEv oldLayout oldAlloc],
          .ok (newAlloc, newLayout.size))
      | .error _ => (ar.1, .error oldAlloc)

/-- Claim C5: on the allocate-copy-free fallback (both sizes nonzero, new
alignment strictly larger), the number of copied bytes is claimed to be
`min(old_size, new_size)`, never exceeding the new layout's size.  The code
copies `old_layout.size()` bytes unconditionally: a `shrink` from layout
(size 8, align 4) to layout (size 4, align 8) copies 8 bytes into the fresh
4-byte allocation, exceeding the new layout's size. -/
theorem globalRealloc_fallback_copies_old_size :
    globalRealloc (some 1000) none ⟨8, 4⟩ ⟨4, 8⟩ 500 =
      ([.allocEv ⟨4, 8⟩ 1000, .copyEv 500 1000 8, .deallocEv ⟨8, 4⟩ 500],
        .ok (1000, 4)) ∧
    (8 : Nat) ≠ min 8 4 ∧
    (4 : Nat) < (8 : Nat) := by
  refine ⟨rfl, by decide, by decide⟩

/-! ## InlineStorage (src/inline_storage.rs)

`InlineStorage<T>` is backed by a fixed region with the size and alignment of
`T` (`tSize`, `tAlign`); the handle is a zero-size token.  We carry the
region's byte contents to state that failed calls leave them untouched. -/

/-- Model of `InlineStorage::allocate` (src/inline_storage.rs lines 32-38):
succeeds iff the requested layout fits in the fixed region, reporting the full
region size. -/
def inlineAllocate (tSize tAlign : Nat) (layout : Layout) :
    Except AllocError (Unit × Nat) :=
  if layout.align ≤ tAlign ∧ layout.size ≤ tSize then .ok ((), tSize)
  else .error .storageAllocError

/-- Model of `InlineStorage::grow` (src/inline_storage.rs lines 44-53): ignores
the old layout and handle and just re-validates `new_layout` via `allocate`;
the region contents are never touched. -/
def inlineGrow (tSize tAlign : Nat) (mem : List Nat) (oldLayout newLayout : Layout) :
    List Nat × Except AllocError (Unit × Nat) :=
  (mem, inlineAllocate tSize tAlign newLayout)

/-- Model of `InlineStorage::shrink` (src/inline_storage.rs lines 55-64):
identical to `grow`, re-validates `new_layout` via `allocate`. -/
def inlineShrink (tSize tAlign : Nat) (mem : List Nat) (oldLayout newLayout : Layout) :
    List Nat × Except AllocError (Unit × Nat) :=
  (mem, inlineAllocate tSize tAlign newLayout)

/-- Model of `ptr::copy` of `count` bytes from offset `src` to offset `dst`
within one buffer (the overlap-safe copy used by `NonNull::copy_from`). -/
def listCopyWithin (l : List Nat) (src dst count : Nat) : List Nat :=
  l.mapIdx fun i x => if dst ≤ i ∧ i < dst + count then l.getD (src + (i - dst)) 0 else x

/-- Model of `SlotStorage::grow` (src/slot_storage.rs lines 52-65): allocates a
fresh offset for `new_layout` and copies `old_layout.size()` bytes from the old
offset to the new one; on allocation failure nothing is copied. -/
def slotGrow (base : Nat) (mem : List Nat) (oldLayout newLayout : Layout)
    (oldHandle : Nat) : List Nat × Except AllocError (Nat × Nat) :=
  match slotAllocate base mem.length newLayout with
  | .error e => (mem, .error e)
  | .ok (newHandle, newSize) =>
    (listCopyWithin mem oldHandle newHandle oldLayout.size, .ok (newHandle, newSize))

/-- Model of `SlotStorage::shrink` (src/slot_storage.rs lines 67-81): like
`grow` but copies `new_layout.size()` bytes. -/
def slotShrink (base : Nat) (mem : List Nat) (oldLayout newLayout : Layout)
    (oldHandle : Nat) : List Nat × Except AllocError (Nat × Nat) :=
  match slotAllocate base mem.length newLayout with
  | .error e => (mem, .error e)
  | .ok (newHandle, newSize) =>
    (listCopyWithin mem oldHandle newHandle newLayout.size, .ok (newHandle, newSize))

/-- Claim C6: for each backend of the repository, a failed `grow`/`shrink`
leaves the original allocation untouched and the original handle valid.  For
`Global`, a failed `realloc` performs no heap effect and hands the old handle
back unchanged in the error; for `InlineStorage` and `SlotStorage`, a failed
`grow`/`shrink` leaves the backing bytes unchanged (and their handles, an
offset or a zero-size token, are never consumed by the failing call). -/
theorem globalAllocate_error_fst (allocOracle : Option Nat) (l : Layout) (e : AllocError)
    (h : (globalAllocate allocOracle l).2 = .error e) :
    (globalAllocate allocOracle l).1 = [] := by
  unfold globalAllocate at h ⊢
  split at h
  · simp at h
  · cases allocOracle <;> simp_all

theorem failed_grow_shrink_preserves_allocation :
    (∀ allocOracle reallocOracle oldL newL oldAlloc evs a,
        globalRealloc allocOracle reallocOracle oldL newL oldAlloc = (evs, .error a) →
        a = oldAlloc ∧ evs = []) ∧
    (∀ tSize tAlign mem oldL newL e,
        ((inlineGrow tSize tAlign mem oldL newL).2 = .error e →
          (inlineGrow tSize tAlign mem oldL newL).1 = mem) ∧
        ((inlineShrink tSize tAlign mem oldL newL).2 = .error e →
          (inlineShrink tSize tAlign mem oldL newL).1 = mem)) ∧
    (∀ base mem oldL newL oldHandle e,
        ((slotGrow base mem oldL newL oldHandle).2 = .error e →
          (slotGrow base mem oldL newL oldHandle).1 = mem) ∧
        ((slotShrink base mem oldL newL oldHandle).2 = .error e →
          (slotShrink base mem oldL newL oldHandle).1 = mem)) := by
  refine ⟨?_, ?_, ?_⟩
  · intro allocOracle reallocOracle oldL newL oldAlloc evs a h
    unfold globalRealloc at h
    repeat' split at h
    all_goals try simp_all
    all_goals
      cases hga : (globalAllocate allocOracle newL).2 <;> rw [hga] at h <;>
        simp_all [globalAllocate_error_fst]
  · intro tSize tAlign mem oldL newL e
    exact ⟨fun _ => rfl, fun _ => rfl⟩
  · intro base mem oldL newL oldHandle e
    constructor
    · intro h
      unfold slotGrow at h ⊢
      split at h
      · rfl
      · simp_all
    · intro h
      unfold slotShrink at h ⊢
      split at h
      · rfl
      · simp_all

/-- Witness for C6: concrete failing calls on each backend.  `Global`: grow
from (4,4) to (8,4) with the heap realloc failing; `InlineStorage<[u8;1]>`:
grow to a 2-byte layout; `SlotStorage` over a 2-byte buffer at base address 1:
allocate for alignment 4 needs offset 3 > 2. -/
theorem failed_grow_shrink_preserves_allocation_witness :
    ((globalRealloc none none ⟨4, 4⟩ ⟨8, 4⟩ 500 =
        ([], Except.error 500)) ∧
      (500 : Nat) = 500 ∧ ([] : List GlobalEvent) = []) ∧
    ((inlineGrow 1 1 [7] ⟨1, 1⟩ ⟨2, 1⟩).2 = .error .storageAllocError ∧
      (inlineGrow 1 1 [7] ⟨1, 1⟩ ⟨2, 1⟩).1 = [7]) ∧
    ((slotGrow 1 [7, 7] ⟨1, 1⟩ ⟨4, 4⟩ 0).2 = .error .storageAllocError ∧
      (slotGrow 1 [7, 7] ⟨1, 1⟩ ⟨4, 4⟩ 0).1 = [7, 7]) := by
  have hg := failed_grow_shrink_preserves_allocation.1 none none ⟨4, 4⟩ ⟨8, 4⟩ 500 []
    500 (by decide)
  have hi := (failed_grow_shrink_preserves_allocation.2.1 1 1 [7] ⟨1, 1⟩ ⟨2, 1⟩
    .storageAllocError).1 (by decide)
  have hs := (failed_grow_shrink_preserves_allocation.2.2 1 [7, 7] ⟨1, 1⟩ ⟨4, 4⟩ 0
    .storageAllocError).1 (by decide)
  exact ⟨⟨by decide, hg.1, hg.2⟩, ⟨by decide, hi⟩, ⟨by decide, hs⟩⟩

/-! ## Vec (src/storage_vec.rs)

`Vec<T, S>` keeps a handle, a length, a capacity (in elements) and the
storage.  We model the `length` initialised elements as a list `data` (so the
Rust `length` is `data.length`), and a backend as a record of state-passing
operations (`σ` the storage state, `H` the handle type).  Element size and
alignment (`size_of::<T>()`, `align_of::<T>()`) are explicit parameters. -/

/-- A storage backend as used by the containers: state-passing versions of
`Storage::allocate`/`grow`/`shrink`. -/
structure StorageModel (σ H : Type) where
  allocate : σ → Layout → σ × Except AllocError (H × Nat)
  grow : σ → Layout → Layout → H → σ × Except AllocError (H × Nat)
  shrink : σ → Layout → Layout → H → σ × Except AllocError (H × Nat)

/-- The `InlineStorage<T>` backend as a `StorageModel` (src/inline_storage.rs):
no mutable state, the zero-size token handle, `grow`/`shrink` re-validate the
new layout via `allocate`. -/
def inlineModel (tSize tAlign : Nat) : StorageModel Unit Unit where
  allocate s l := (s, inlineAllocate tSize tAlign l)
  grow s _ nl _ := (s, inlineAllocate tSize tAlign nl)
  shrink s _ nl _ := (s, inlineAllocate tSize tAlign nl)

/-- The `Global` backend (src/global_storage.rs) under a heap that never
fails, with fresh addresses handed out from a counter: `allocate` returns the
dangling handle for zero-size requests and a fresh address otherwise;
`grow`/`shrink` follow `Global::realloc` (always taking the successful
branch). -/
def globalInfModel : StorageModel Nat Nat where
  allocate s l := if l.size = 0 then (s, .ok (l.align, 0)) else (s + l.size, .ok (s, l.size))
  grow s ol nl h :=
    match ol.size, nl.size with
    | 0, 0 => (s, .ok (h, 0))
    | 0, _ + 1 => (s + nl.size, .ok (s, nl.size))
    | _ + 1, 0 => (s, .ok (nl.align, 0))
    | _ + 1, _ + 1 => (s + nl.size, .ok (s, nl.size))
  shrink s ol nl h :=
    match ol.size, nl.size with
    | 0, 0 => (s, .ok (h, 0))
    | 0, _ + 1 => (s + nl.size, .ok (s, nl.size))
    | _ + 1, 0 => (s, .ok (nl.align, 0))
    | _ + 1, _ + 1 => (s + nl.size, .ok (s, nl.size))

/-- Model of `Vec<T, S>`: handle, initialised elements (`data`, whose length
is the Rust `length` field), capacity in elements, storage state. -/
structure Vec (T σ H : Type) where
  handle : H
  data : List T
  capacity : Nat
  storage : σ
deriving DecidableEq, Repr

/-- Model of `capacity_in_bytes.checked_div(size_of::<T>()).unwrap_or(usize::MAX)`. -/
def vecCapFromBytes (elemSize bytes : Nat) : Nat :=
  if elemSize = 0 then USIZE_MAX else bytes / elemSize

/-- Model of `Vec::with_capacity_in` (src/storage_vec.rs lines 50-62). -/
def Vec.withCapacityIn {T σ H : Type} (M : StorageModel σ H) (elemSize elemAlign : Nat)
    (storage : σ) (capacity : Nat) : Except AllocError (Vec T σ H) :=
  match layoutArray elemSize elemAlign capacity with
  | none => .error .storageAllocError
  | some l =>
    let ar := M.allocate storage l
    match ar.2 with
    | .error e => .error e
    | .ok (h, bytes) => .ok ⟨h, [], vecCapFromBytes elemSize bytes, ar.1⟩

/-- The tail of `Vec::reserve_exact` after the call to `Storage::grow`
(src/storage_vec.rs lines 124-136): on failure propagate the error (the vec's
handle, elements and capacity untouched, only the storage state threaded); on
success install the new handle and derive the new capacity from the returned
byte count. -/
def Vec.applyGrow {T σ H : Type} (elemSize : Nat) (v : Vec T σ H)
    (gr : σ × Except AllocError (H × Nat)) : Vec T σ H × Option AllocError :=
  match gr with
  | (s1, .error e) => ({ v with storage := s1 }, some e)
  | (s1, .ok (newHandle, bytes)) =>
    (⟨newHandle, v.data, vecCapFromBytes elemSize bytes, s1⟩, none)

/-- Model of `Vec::reserve_exact` (src/storage_vec.rs lines 113-137):
`length.checked_add(extra)`, the early return when `new_capacity < capacity`
(note: strictly less), `Layout::array` of the new capacity, then
`Storage::grow` from the current capacity's layout followed by the
handle/capacity update (`Vec.applyGrow`). -/
def Vec.reserveExact {T σ H : Type} (M : StorageModel σ H) (elemSize elemAlign : Nat)
    (v : Vec T σ H) (extra : Nat) : Vec T σ H × Option AllocError :=
  if USIZE ≤ v.data.length + extra then (v, some .storageAllocError)
  else
    if v.data.length + extra < v.capacity then (v, none)
    else
      match layoutArray elemSize elemAlign (v.data.length + extra) with
      | none => (v, some .storageAllocError)
      | some newLayout =>
        Vec.applyGrow elemSize v
          (M.grow v.storage ⟨v.capacity * elemSize, elemAlign⟩ newLayout v.handle)

/-- The `if let Ok(()) = self.reserve_exact(doubled_capacity) { return Ok(()); }`
step of `Vec::reserve`: keep a successful doubling attempt, otherwise fall
back to `reserve_exact(extra_capacity)` on the (possibly storage-threaded)
vec returned by the failed attempt. -/
def Vec.reserveSecondTry {T σ H : Type} (M : StorageModel σ H) (elemSize elemAlign : Nat)
    (extra : Nat) (r : Vec T σ H × Option AllocError) : Vec T σ H × Option AllocError :=
  match r with
  | (v1, none) => (v1, none)
  | (v1, some _) => Vec.reserveExact M elemSize elemAlign v1 extra

/-- Model of `Vec::reserve` (src/storage_vec.rs lines 142-162): early return
when the requirement already fits (`new_capacity <= capacity`), then the
geometric attempt `capacity.checked_mul(2)`, `.max(1)`, tried through
`reserve_exact` when it strictly exceeds the requirement, with fallback to
`reserve_exact(extra_capacity)`. -/
def Vec.reserve {T σ H : Type} (M : StorageModel σ H) (elemSize elemAlign : Nat)
    (v : Vec T σ H) (extra : Nat) : Vec T σ H × Option AllocError :=
  if USIZE ≤ v.data.length + extra then (v, some .storageAllocError)
  else
    if v.data.length + extra ≤ v.capacity then (v, none)
    else
      if v.capacity * 2 < USIZE then
        if v.data.length + extra < max (v.capacity * 2) 1 then
          Vec.reserveSecondTry M elemSize elemAlign extra
            (Vec.reserveExact M elemSize elemAlign v (max (v.capacity * 2) 1))
        else Vec.reserveExact M elemSize elemAlign v extra
      else Vec.reserveExact M elemSize elemAlign v extra

/-- Model of `PushError` (src/storage_vec.rs lines 379-386). -/
structure PushError (T : Type) where
  value : T
  allocError : AllocError
deriving DecidableEq, Repr

/-- Model of `Vec::push` (src/storage_vec.rs lines 237-254): reserve one slot
(returning the value inside the error on failure), then write the value at
index `length` and increment the length. -/
def Vec.push {T σ H : Type} (M : StorageModel σ H) (elemSize elemAlign : Nat)
    (v : Vec T σ H) (value : T) : Vec T σ H × Option (PushError T) :=
  match Vec.reserve M elemSize elemAlign v 1 with
  | (v1, some e) => (v1, some ⟨value, e⟩)
  | (v1, none) => ({ v1 with data := v1.data ++ [value] }, none)

/-- Model of `Vec::pop` (src/storage_vec.rs lines 325-340): `None` on an empty
vector, otherwise decrement the length and read the element at the new
length. -/
def Vec.pop {T σ H : Type} (v : Vec T σ H) : Vec T σ H × Option T :=
  if v.data.length = 0 then (v, none)
  else ({ v with data := v.data.dropLast }, v.data.getLast?)

/-- Model of `Vec::extend_from_slice` (src/storage_vec.rs lines 430-441):
reserve room for the slice, then copy it after the current elements. -/
def Vec.extendFromSlice {T σ H : Type} (M : StorageModel σ H) (elemSize elemAlign : Nat)
    (v : Vec T σ H) (values : List T) : Vec T σ H × Option AllocError :=
  match Vec.reserve M elemSize elemAlign v values.length with
  | (v1, some e) => (v1, some e)
  | (v1, none) => ({ v1 with data := v1.data ++ values }, none)

theorem applyGrow_data_eq {T σ H : Type} (es : Nat) (v : Vec T σ H)
    (gr : σ × Except AllocError (H × Nat)) :
    (Vec.applyGrow es v gr).1.data = v.data := by
  rcases gr with ⟨s1, r⟩
  cases r with
  | error e => rfl
  | ok p => rcases p with ⟨h1, bytes⟩; rfl

theorem applyGrow_fail_preserves {T σ H : Type} (es : Nat) (v : Vec T σ H)
    (gr : σ × Except AllocError (H × Nat)) (e : AllocError)
    (h : (Vec.applyGrow es v gr).2 = some e) :
    (Vec.applyGrow es v gr).1.capacity = v.capacity ∧
    (Vec.applyGrow es v gr).1.handle = v.handle := by
  rcases gr with ⟨s1, r⟩
  cases r with
  | error e1 => exact ⟨rfl, rfl⟩
  | ok p => rcases p with ⟨h1, bytes⟩; simp [Vec.applyGrow] at h

theorem reserveExact_data_eq {T σ H : Type} (M : StorageModel σ H) (es ea : Nat)
    (v : Vec T σ H) (extra : Nat) :
    (Vec.reserveExact M es ea v extra).1.data = v.data := by
  unfold Vec.reserveExact
  repeat' split
  · rfl
  · rfl
  · rfl
  · apply applyGrow_data_eq

theorem reserveExact_fail_preserves {T σ H : Type} (M : StorageModel σ H) (es ea : Nat)
    (v : Vec T σ H) (extra : Nat) (e : AllocError)
    (h : (Vec.reserveExact M es ea v extra).2 = some e) :
    (Vec.reserveExact M es ea v extra).1.capacity = v.capacity ∧
    (Vec.reserveExact M es ea v extra).1.handle = v.handle := by
  revert h
  unfold Vec.reserveExact
  repeat' split
  · exact fun _ => ⟨rfl, rfl⟩
  · intro h; simp at h
  · exact fun _ => ⟨rfl, rfl⟩
  · exact applyGrow_fail_preserves es v _ e

theorem reserveSecondTry_data_eq {T σ H : Type} (M : StorageModel σ H) (es ea extra : Nat)
    (r : Vec T σ H × Option AllocError) :
    (Vec.reserveSecondTry M es ea extra r).1.data = r.1.data := by
  rcases r with ⟨v1, r1⟩
  cases r1 with
  | none => rfl
  | some e1 => exact reserveExact_data_eq M es ea v1 extra

theorem reserve_data_eq {T σ H : Type} (M : StorageModel σ H) (es ea : Nat)
    (v : Vec T σ H) (extra : Nat) :
    (Vec.reserve M es ea v extra).1.data = v.data := by
  unfold Vec.reserve
  repeat' split
  · rfl
  · rfl
  · rw [reserveSecondTry_data_eq, reserveExact_data_eq]
  · apply reserveExact_data_eq
  · apply reserveExact_data_eq

theorem reserve_fail_preserves {T σ H : Type} (M : StorageModel σ H) (es ea : Nat)
    (v : Vec T σ H) (extra : Nat) (e : AllocError)
    (h : (Vec.reserve M es ea v extra).2 = some e) :
    (Vec.reserve M es ea v extra).1.capacity = v.capacity ∧
    (Vec.reserve M es ea v extra).1.handle = v.handle := by
  revert h
  unfold Vec.reserve
  repeat' split
  · exact fun _ => ⟨rfl, rfl⟩
  · intro h; simp at h
  · intro h
    rcases hr : Vec.reserveExact M es ea v (max (v.capacity * 2) 1) with ⟨v1, r1⟩
    rw [hr] at h
    cases r1 with
    | none => simp [Vec.reserveSecondTry] at h
    | some e1 =>
      have hv1 : v1.capacity = v.capacity ∧ v1.handle = v.handle := by
        have := reserveExact_fail_preserves M es ea v (max (v.capacity * 2) 1) e1
          (by rw [hr])
        rw [hr] at this
        exact this
      simp only [Vec.reserveSecondTry] at h ⊢
      have := reserveExact_fail_preserves M es ea v1 extra e h
      exact ⟨this.1.trans hv1.1, this.2.trans hv1.2⟩
  · exact fun h => reserveExact_fail_preserves M es ea v extra e h
  · exact fun h => reserveExact_fail_preserves M es ea v extra e h

/-- The documented contract of `Storage::grow`: the returned byte count is at
least the requested `new_layout.size()` ("may be more than requested") and is
a `usize` value. -/
def StorageModel.SizeContract {σ H : Type} (M : StorageModel σ H) : Prop :=
  ∀ (s : σ) (ol nl : Layout) (hd : H) (h1 : H) (n : Nat),
    (M.grow s ol nl hd).2 = .ok (h1, n) → nl.size ≤ n ∧ n ≤ USIZE_MAX

theorem reserveExact_capacity_mono {T σ H : Type} {M : StorageModel σ H}
    (hM : M.SizeContract) (es ea : Nat) (v : Vec T σ H) (extra : Nat)
    (hcap : v.capacity ≤ USIZE_MAX) :
    v.capacity ≤ (Vec.reserveExact M es ea v extra).1.capacity ∧
    (Vec.reserveExact M es ea v extra).1.capacity ≤ USIZE_MAX := by
  unfold Vec.reserveExact
  repeat' split
  · exact ⟨le_refl _, hcap⟩
  · exact ⟨le_refl _, hcap⟩
  · exact ⟨le_refl _, hcap⟩
  rename_i newLayout heqL
  have hle : v.capacity ≤ v.data.length + extra := Nat.le_of_not_lt (by assumption)
  rcases hg : M.grow v.storage ⟨v.capacity * es, ea⟩ newLayout v.handle with ⟨s1, r⟩
  cases r with
  | error e => exact ⟨le_refl _, hcap⟩
  | ok p =>
    rcases p with ⟨h1, bytes⟩
    have hb := hM v.storage ⟨v.capacity * es, ea⟩ newLayout v.handle h1 bytes (by rw [hg])
    have hsize : newLayout.size = (v.data.length + extra) * es := by
      unfold layoutArray at heqL
      split at heqL
      · injection heqL with h
        rw [← h]
      · exact absurd heqL (by simp)
    show v.capacity ≤ vecCapFromBytes es bytes ∧ vecCapFromBytes es bytes ≤ USIZE_MAX
    unfold vecCapFromBytes
    split
    · exact ⟨hcap, le_refl _⟩
    · rename_i hes
      constructor
      · have h2le : v.data.length + extra ≤ bytes / es := by
          rw [Nat.le_div_iff_mul_le (Nat.pos_of_ne_zero hes)]
          calc (v.data.length + extra) * es = newLayout.size := hsize.symm
            _ ≤ bytes := hb.1
        exact le_trans hle h2le
      · exact le_trans (Nat.div_le_self _ _) hb.2

theorem reserveSecondTry_capacity_mono {T σ H : Type} {M : StorageModel σ H}
    (hM : M.SizeContract) (es ea extra : Nat) (r : Vec T σ H × Option AllocError)
    (hcap : r.1.capacity ≤ USIZE_MAX) :
    r.1.capacity ≤ (Vec.reserveSecondTry M es ea extra r).1.capacity ∧
    (Vec.reserveSecondTry M es ea extra r).1.capacity ≤ USIZE_MAX := by
  rcases r with ⟨v1, r1⟩
  cases r1 with
  | none => exact ⟨le_refl _, hcap⟩
  | some e1 => exact reserveExact_capacity_mono hM es ea v1 extra hcap

theorem reserve_capacity_mono {T σ H : Type} {M : StorageModel σ H}
    (hM : M.SizeContract) (es ea : Nat) (v : Vec T σ H) (extra : Nat)
    (hcap : v.capacity ≤ USIZE_MAX) :
    v.capacity ≤ (Vec.reserve M es ea v extra).1.capacity ∧
    (Vec.reserve M es ea v extra).1.capacity ≤ USIZE_MAX := by
  unfold Vec.reserve
  repeat' split
  · exact ⟨le_refl _, hcap⟩
  · exact ⟨le_refl _, hcap⟩
  · have hA := reserveExact_capacity_mono hM es ea v (max (v.capacity * 2) 1) hcap
    have hB := reserveSecondTry_capacity_mono hM es ea extra
      (Vec.reserveExact M es ea v (max (v.capacity * 2) 1)) hA.2
    exact ⟨le_trans hA.1 hB.1, hB.2⟩
  · exact reserveExact_capacity_mono hM es ea v extra hcap
  · exact reserveExact_capacity_mono hM es ea v extra hcap

theorem push_fail_eq {T σ H : Type} (M : StorageModel σ H) (es ea : Nat)
    (v : Vec T σ H) (x : T) (v1 : Vec T σ H) (pe : PushError T)
    (h : Vec.push M es ea v x = (v1, some pe)) :
    pe.value = x ∧ v1.data = v.data ∧ v1.capacity = v.capacity ∧ v1.handle = v.handle := by
  unfold Vec.push at h
  rcases hr : Vec.reserve M es ea v 1 with ⟨w, r⟩
  rw [hr] at h
  cases r with
  | some e =>
    simp only [Prod.mk.injEq, Option.some.injEq] at h
    obtain ⟨hw, hpe⟩ := h
    subst hw
    subst hpe
    refine ⟨rfl, ?_, ?_, ?_⟩
    · have hd := reserve_data_eq M es ea v 1
      rw [hr] at hd
      exact hd
    · have hc := reserve_fail_preserves M es ea v 1 e (by rw [hr])
      rw [hr] at hc
      exact hc.1
    · have hc := reserve_fail_preserves M es ea v 1 e (by rw [hr])
      rw [hr] at hc
      exact hc.2
  | none => simp at h

theorem push_ok_eq {T σ H : Type} (M : StorageModel σ H) (es ea : Nat)
    (v : Vec T σ H) (x : T) (v1 : Vec T σ H)
    (h : Vec.push M es ea v x = (v1, none)) :
    v1.data = v.data ++ [x] := by
  unfold Vec.push at h
  rcases hr : Vec.reserve M es ea v 1 with ⟨w, r⟩
  rw [hr] at h
  cases r with
  | some e => simp at h
  | none =>
    simp only [Prod.mk.injEq] at h
    obtain ⟨hw, -⟩ := h
    have hd := reserve_data_eq M es ea v 1
    rw [hr] at hd
    rw [← hw]
    show w.data ++ [x] = v.data ++ [x]
    rw [hd]

theorem push_capacity_mono {T σ H : Type} {M : StorageModel σ H}
    (hM : M.SizeContract) (es ea : Nat) (v : Vec T σ H) (x : T)
    (hcap : v.capacity ≤ USIZE_MAX) :
    v.capacity ≤ (Vec.push M es ea v x).1.capacity ∧
    (Vec.push M es ea v x).1.capacity ≤ USIZE_MAX := by
  unfold Vec.push
  have hc := reserve_capacity_mono hM es ea v 1 hcap
  rcases hr : Vec.reserve M es ea v 1 with ⟨w, r⟩
  rw [hr] at hc
  cases r with
  | some e => exact hc
  | none => exact hc

theorem pop_spec {T σ H : Type} (v : Vec T σ H) :
    ((Vec.pop v).1.capacity = v.capacity ∧ (Vec.pop v).1.handle = v.handle) ∧
    ((Vec.pop v).2.isSome = true → (Vec.pop v).1.data.length + 1 = v.data.length) ∧
    ((Vec.pop v).2 = none → (Vec.pop v).1 = v) := by
  unfold Vec.pop
  split
  · exact ⟨⟨rfl, rfl⟩, by simp, fun _ => rfl⟩
  · rename_i h0
    refine ⟨⟨rfl, rfl⟩, fun _ => ?_, fun hn => ?_⟩
    · show v.data.dropLast.length + 1 = v.data.length
      rw [List.length_dropLast]
      exact Nat.succ_pred_eq_of_pos (Nat.pos_of_ne_zero h0)
    · exfalso
      have : v.data ≠ [] := fun he => h0 (by rw [he]; rfl)
      rw [List.getLast?_eq_getLast v.data this] at hn
      simp at hn

/-- A push-or-pop call on a `Vec`. -/
inductive VecOp (T : Type) where
  | push (x : T)
  | pop
deriving DecidableEq, Repr

/-- Runs a sequence of `push`/`pop` calls on a `Vec`, returning the final
`Vec` together with the number of successful pushes and the number of pops
that returned a value. -/
def Vec.runOps {T σ H : Type} (M : StorageModel σ H) (es ea : Nat) :
    Vec T σ H → List (VecOp T) → Vec T σ H × Nat × Nat
  | v, [] => (v, 0, 0)
  | v, .push x :: rest =>
    match Vec.push M es ea v x with
    | (v1, none) =>
      match Vec.runOps M es ea v1 rest with
      | (vf, p, q) => (vf, p + 1, q)
    | (v1, some _) => Vec.runOps M es ea v1 rest
  | v, .pop :: rest =>
    match Vec.pop v with
    | (v1, some _) =>
      match Vec.runOps M es ea v1 rest with
      | (vf, p, q) => (vf, p, q + 1)
    | (v1, none) => Vec.runOps M es ea v1 rest

theorem runOps_invariant {T σ H : Type} {M : StorageModel σ H}
    (hM : M.SizeContract) (es ea : Nat) (ops : List (VecOp T)) :
    ∀ v : Vec T σ H, v.capacity ≤ USIZE_MAX →
    ((Vec.runOps M es ea v ops).1.data.length + (Vec.runOps M es ea v ops).2.2
      = v.data.length + (Vec.runOps M es ea v ops).2.1) ∧
    v.capacity ≤ (Vec.runOps M es ea v ops).1.capacity ∧
    (Vec.runOps M es ea v ops).1.capacity ≤ USIZE_MAX := by
  induction ops with
  | nil => exact fun v hcap => ⟨rfl, le_refl _, hcap⟩
  | cons op rest ih =>
    intro v hcap
    cases op with
    | push x =>
      have hcapm := push_capacity_mono hM es ea v x hcap
      rcases hp : Vec.push M es ea v x with ⟨v1, r⟩
      rw [hp] at hcapm
      cases r with
      | none =>
        have hdata := push_ok_eq M es ea v x v1 hp
        have ihv := ih v1 hcapm.2
        simp only [Vec.runOps, hp]
        rcases hrun : Vec.runOps M es ea v1 rest with ⟨vf, p, q⟩
        rw [hrun] at ihv
        simp only at ihv ⊢
        refine ⟨?_, le_trans hcapm.1 ihv.2.1, ihv.2.2⟩
        have hlen : v1.data.length = v.data.length + 1 := by
          rw [hdata, List.length_append, List.length_singleton]
        omega
      | some e =>
        have hfail := push_fail_eq M es ea v x v1 e hp
        have ihv := ih v1 hcapm.2
        simp only [Vec.runOps, hp]
        refine ⟨?_, le_trans hcapm.1 ihv.2.1, ihv.2.2⟩
        rw [hfail.2.1] at ihv
        exact ihv.1
    | pop =>
      have hspec := pop_spec v
      rcases hp : Vec.pop v with ⟨v1, r⟩
      rw [hp] at hspec
      cases r with
      | some t =>
        have hlen : v1.data.length + 1 = v.data.length := hspec.2.1 rfl
        have hcap1 : v1.capacity ≤ USIZE_MAX := by rw [hspec.1.1]; exact hcap
        have ihv := ih v1 hcap1
        simp only [Vec.runOps, hp]
        rcases hrun : Vec.runOps M es ea v1 rest with ⟨vf, p, q⟩
        rw [hrun] at ihv
        simp only at ihv ⊢
        have hcapm : v.capacity ≤ v1.capacity := le_of_eq hspec.1.1.symm
        refine ⟨by omega, le_trans hcapm ihv.2.1, ihv.2.2⟩
      | none =>
        have hv1 : v1 = v := hspec.2.2 rfl
        subst hv1
        have ihv := ih v1 hcap
        simp only [Vec.runOps, hp]
        exact ihv

theorem inlineModel_sizeContract (tSize tAlign : Nat) (hts : tSize ≤ USIZE_MAX) :
    (inlineModel tSize tAlign).SizeContract := by
  intro s ol nl hd h1 n h
  simp only [inlineModel] at h
  unfold inlineAllocate at h
  split at h
  · rename_i hcond
    simp only [Except.ok.injEq, Prod.mk.injEq] at h
    obtain ⟨-, hn⟩ := h
    subst hn
    exact ⟨hcond.2, hts⟩
  · simp at h

/-- Claim C9 (amended): over any backend meeting the grow size contract, for
any interleaved push/pop sequence the final length plus the number of
value-returning pops equals the initial length plus the number of successful
pushes; the capacity never decreases (so it ends at least as large as it
began, rather than exactly equal); and when the Vec starts empty and the
successful pushes and value-returning pops balance, the Vec ends empty. -/
theorem vec_push_pop_balance {T σ H : Type} (M : StorageModel σ H)
    (hM : M.SizeContract) (es ea : Nat) (v : Vec T σ H) (ops : List (VecOp T))
    (hcap : v.capacity ≤ USIZE_MAX) :
    ((Vec.runOps M es ea v ops).1.data.length + (Vec.runOps M es ea v ops).2.2
      = v.data.length + (Vec.runOps M es ea v ops).2.1) ∧
    v.capacity ≤ (Vec.runOps M es ea v ops).1.capacity ∧
    (v.data = [] →
      (Vec.runOps M es ea v ops).2.1 = (Vec.runOps M es ea v ops).2.2 →
      (Vec.runOps M es ea v ops).1.data = []) := by
  have h := runOps_invariant hM es ea ops v hcap
  refine ⟨h.1, h.2.1, fun hemp hbal => ?_⟩
  have h1 := h.1
  rw [hemp, hbal] at h1
  simp only [List.length_nil, Nat.zero_add] at h1
  have hlen0 : (Vec.runOps M es ea v ops).1.data.length = 0 := by omega
  exact List.length_eq_zero.mp hlen0

/-- Claim C9 is false as stated: on the `Global` backend (under a never
failing heap), a Vec of `i32` in the state (one element, capacity 1) subjected
to one successful push followed by one pop — equally many successful pushes
and pops — ends with one element (not empty) and capacity 2 (not the initial
capacity 1): the push had to grow the allocation and pops never shrink it. -/
theorem vec_push_pop_counterexample :
    (Vec.runOps globalInfModel 4 4 (⟨0, [(5 : Int)], 1, 100⟩ : Vec Int Nat Nat)
        [.push 6, .pop]).2.1 = 1 ∧
    (Vec.runOps globalInfModel 4 4 (⟨0, [(5 : Int)], 1, 100⟩ : Vec Int Nat Nat)
        [.push 6, .pop]).2.2 = 1 ∧
    (Vec.runOps globalInfModel 4 4 (⟨0, [(5 : Int)], 1, 100⟩ : Vec Int Nat Nat)
        [.push 6, .pop]).1.data = [5] ∧
    (Vec.runOps globalInfModel 4 4 (⟨0, [(5 : Int)], 1, 100⟩ : Vec Int Nat Nat)
        [.push 6, .pop]).1.data ≠ [] ∧
    (Vec.runOps globalInfModel 4 4 (⟨0, [(5 : Int)], 1, 100⟩ : Vec Int Nat Nat)
        [.push 6, .pop]).1.capacity = 2 ∧
    (2 : Nat) ≠ 1 := by
  refine ⟨?_, ?_, ?_, ?_, ?_, ?_⟩ <;> decide

/-- Witness for the amended C9 theorem: a 2-element inline backend, a fresh
empty Vec, two pushes then two pops; the hypotheses hold and the Vec ends
empty. -/
theorem vec_push_pop_balance_witness :
    (Vec.runOps (inlineModel 8 4) 4 4 (⟨(), [], 2, ()⟩ : Vec Int Unit Unit)
        [.push 1, .push 2, .pop, .pop]).1.data = [] := by
  have h := vec_push_pop_balance (inlineModel 8 4)
    (inlineModel_sizeContract 8 4 (by decide)) 4 4 (⟨(), [], 2, ()⟩ : Vec Int Unit Unit)
    [.push 1, .push 2, .pop, .pop] (by decide)
  exact h.2.2 rfl (by decide)

/-- Claim C7: the concrete scenario — a `Vec<i32>` over `InlineStorage<[i32; 2]>`
starts with capacity 2, `push(1)` and `push(2)` succeed, `push(3)` fails with
an error carrying the value 3 and an allocation error while the contents stay
`[1, 2]` — and, in general, a failed push hands the attempted value back in
the error and leaves the elements, the capacity and the handle unchanged. -/
theorem vec_push_spec :
    (Vec.withCapacityIn (inlineModel 8 4) 4 4 () 0
      = .ok (⟨(), [], 2, ()⟩ : Vec Int Unit Unit)) ∧
    Vec.push (inlineModel 8 4) 4 4 (⟨(), [], 2, ()⟩ : Vec Int Unit Unit) 1
      = (⟨(), [1], 2, ()⟩, none) ∧
    Vec.push (inlineModel 8 4) 4 4 (⟨(), [1], 2, ()⟩ : Vec Int Unit Unit) 2
      = (⟨(), [1, 2], 2, ()⟩, none) ∧
    Vec.push (inlineModel 8 4) 4 4 (⟨(), [1, 2], 2, ()⟩ : Vec Int Unit Unit) 3
      = (⟨(), [1, 2], 2, ()⟩, some ⟨3, .storageAllocError⟩) ∧
    ∀ (T σ H : Type) (M : StorageModel σ H) (es ea : Nat) (v v1 : Vec T σ H) (x : T)
      (pe : PushError T), Vec.push M es ea v x = (v1, some pe) →
      pe.value = x ∧ v1.data = v.data ∧ v1.capacity = v.capacity ∧ v1.handle = v.handle := by
  refine ⟨by decide, by decide, by decide, by decide, ?_⟩
  intro T σ H M es ea v v1 x pe h
  exact push_fail_eq M es ea v x v1 pe h

/-- Witness for C7's general part, instantiated at the failing `push(3)` of
the concrete scenario. -/
theorem vec_push_spec_witness :
    (PushError.mk (3 : Int) .storageAllocError).value = 3 ∧
    (⟨(), [1, 2], 2, ()⟩ : Vec Int Unit Unit).data = ([1, 2] : List Int) := by
  have h := vec_push_spec.2.2.2.2 Int Unit Unit (inlineModel 8 4) 4 4
    ⟨(), [1, 2], 2, ()⟩ ⟨(), [1, 2], 2, ()⟩ 3 ⟨3, .storageAllocError⟩ (by decide)
  exact ⟨h.1, h.2.1⟩

/-! ## String (src/storage_string.rs)

`String<S>` wraps a `Vec<u8, S>` whose bytes are valid UTF-8; `push_str`
delegates to `Vec::extend_from_slice` on the bytes of the input `&str`.  A
`&str` is modelled by its list of Unicode scalar values; its byte view is the
UTF-8 encoding of that list. -/

theorem extendFromSlice_ok_eq {T σ H : Type} (M : StorageModel σ H) (es ea : Nat)
    (v : Vec T σ H) (values : List T) (v1 : Vec T σ H)
    (h : Vec.extendFromSlice M es ea v values = (v1, none)) :
    v1.data = v.data ++ values := by
  unfold Vec.extendFromSlice at h
  rcases hr : Vec.reserve M es ea v values.length with ⟨w, r⟩
  rw [hr] at h
  cases r with
  | some e => simp at h
  | none =>
    simp only [Prod.mk.injEq] at h
    obtain ⟨hw, -⟩ := h
    have hd := reserve_data_eq M es ea v values.length
    rw [hr] at hd
    rw [← hw]
    show w.data ++ values = v.data ++ values
    rw [hd]

theorem extendFromSlice_fail_eq {T σ H : Type} (M : StorageModel σ H) (es ea : Nat)
    (v : Vec T σ H) (values : List T) (v1 : Vec T σ H) (e : AllocError)
    (h : Vec.extendFromSlice M es ea v values = (v1, some e)) :
    v1.data = v.data := by
  unfold Vec.extendFromSlice at h
  rcases hr : Vec.reserve M es ea v values.length with ⟨w, r⟩
  rw [hr] at h
  cases r with
  | none => simp at h
  | some e1 =>
    simp only [Prod.mk.injEq] at h
    obtain ⟨hw, -⟩ := h
    have hd := reserve_data_eq M es ea v values.length
    rw [hr] at hd
    rw [← hw]
    exact hd

/-- UTF-8 encoding of one Unicode scalar value (the encoding `char::encode_utf8`
produces). -/
def utf8EncodeChar (c : Nat) : List Nat :=
  if c < 128 then [c]
  else if c < 2048 then [192 + c / 64, 128 + c % 64]
  else if c < 65536 then [224 + c / 4096, 128 + c / 64 % 64, 128 + c % 64]
  else [240 + c / 262144, 128 + c / 4096 % 64, 128 + c / 64 % 64, 128 + c % 64]

/-- Byte view (`str::as_bytes`) of a `&str` given as its scalar values. -/
def utf8EncodeStr (s : List Nat) : List Nat :=
  (s.map utf8EncodeChar).flatten

/-- A Unicode scalar value: below 0x110000 and not a surrogate. -/
def ValidScalar (c : Nat) : Prop :=
  c < 1114112 ∧ ¬ (55296 ≤ c ∧ c ≤ 57343)

instance (c : Nat) : Decidable (ValidScalar c) := by
  unfold ValidScalar
  infer_instance

/-- A byte list is valid UTF-8 iff it is the encoding of some scalar-value
sequence. -/
def Utf8Valid (bs : List Nat) : Prop :=
  ∃ cs : List Nat, (∀ c ∈ cs, ValidScalar c) ∧ bs = utf8EncodeStr cs

theorem utf8Valid_append (bs s : List Nat) (hb : Utf8Valid bs)
    (hs : ∀ c ∈ s, ValidScalar c) : Utf8Valid (bs ++ utf8EncodeStr s) := by
  obtain ⟨cs, hcs, rfl⟩ := hb
  refine ⟨cs ++ s, ?_, ?_⟩
  · intro c hc
    rcases List.mem_append.mp hc with h | h
    · exact hcs c h
    · exact hs c h
  · unfold utf8EncodeStr
    rw [List.map_append, List.flatten_append]

/-- Model of `String<S>` (src/storage_string.rs): a `Vec<u8, S>` of bytes. -/
structure StringM (σ H : Type) where
  vec : Vec Nat σ H
deriving DecidableEq, Repr

/-- Model of `String::push_str` (src/storage_string.rs lines 134-140):
`self.vec.extend_from_slice(s.as_bytes())`, where `s` is given by its scalar
values (`u8` has size 1 and alignment 1). -/
def StringM.pushStr {σ H : Type} (M : StorageModel σ H) (st : StringM σ H)
    (s : List Nat) : StringM σ H × Option AllocError :=
  match Vec.extendFromSlice M 1 1 st.vec (utf8EncodeStr s) with
  | (v1, r) => (⟨v1⟩, r)

/-- Claim C8: `String::push_str` either succeeds, leaving the bytes equal to
the old bytes followed by the input's bytes and still valid UTF-8, or fails
with an allocation error leaving the previous bytes byte-for-byte
unchanged. -/
theorem string_push_str_spec {σ H : Type} (M : StorageModel σ H) (st : StringM σ H)
    (s : List Nat) (hs : ∀ c ∈ s, ValidScalar c) (hv : Utf8Valid st.vec.data) :
    ((StringM.pushStr M st s).2 = none →
      (StringM.pushStr M st s).1.vec.data = st.vec.data ++ utf8EncodeStr s ∧
      Utf8Valid (StringM.pushStr M st s).1.vec.data) ∧
    (∀ e, (StringM.pushStr M st s).2 = some e →
      (StringM.pushStr M st s).1.vec.data = st.vec.data) := by
  unfold StringM.pushStr
  rcases hr : Vec.extendFromSlice M 1 1 st.vec (utf8EncodeStr s) with ⟨v1, r⟩
  cases r with
  | none =>
    have hd := extendFromSlice_ok_eq M 1 1 st.vec (utf8EncodeStr s) v1 hr
    refine ⟨fun _ => ⟨hd, ?_⟩, by simp⟩
    rw [hd]
    exact utf8Valid_append _ _ hv hs
  | some e =>
    have hd := extendFromSlice_fail_eq M 1 1 st.vec (utf8EncodeStr s) v1 e hr
    exact ⟨by simp, fun e1 _ => hd⟩

/-- Witness for C8: pushing the string "i" onto the string "h" held in a
4-byte inline backend succeeds and keeps the bytes valid UTF-8. -/
theorem string_push_str_spec_witness :
    (StringM.pushStr (inlineModel 4 1) (⟨⟨(), [104], 4, ()⟩⟩ : StringM Unit Unit)
        [105]).1.vec.data = [104] ++ utf8EncodeStr [105] ∧
    Utf8Valid (StringM.pushStr (inlineModel 4 1)
        (⟨⟨(), [104], 4, ()⟩⟩ : StringM Unit Unit) [105]).1.vec.data := by
  exact (string_push_str_spec (inlineModel 4 1) ⟨⟨(), [104], 4, ()⟩⟩ [105]
    (by decide) ⟨[104], by decide, by decide⟩).1 (by decide)

/-! ## VecDeque (src/storage_vecdeque.rs)

`VecDeque<T, S>` keeps a handle, a head index, a length, a capacity and the
storage.  We model the backing buffer as `capacity` slots of `Option T`
(`none` for uninitialised memory); the live elements sit at slot
`(head + i) % capacity` for `i < length`. -/

/-- Model of `VecDeque<T, S>`. -/
structure Deque (T σ H : Type) where
  handle : H
  head : Nat
  length : Nat
  capacity : Nat
  buf : List (Option T)
  storage : σ
deriving DecidableEq, Repr

/-- Model of `VecDeque::is_contiguous` (src/storage_vecdeque.rs lines 113-115):
`head <= capacity - length`. -/
def Deque.isContiguous {T σ H : Type} (d : Deque T σ H) : Bool :=
  decide (d.head ≤ d.capacity - d.length)

/-- The reallocated buffer seen as slots: the old slots carried over (realloc
preserves the old contents) and the newly grown region uninitialised. -/
def listResize {T : Type} (l : List (Option T)) (n : Nat) : List (Option T) :=
  (l ++ List.replicate (n - l.length) none).take n

/-- Model of `ptr::copy` of `count` element slots from slot `src` to slot
`dst` within the deque's buffer. -/
def dequeCopySlots {T : Type} (buf : List (Option T)) (src dst count : Nat) :
    List (Option T) :=
  buf.mapIdx fun i x => if dst ≤ i ∧ i < dst + count then buf.getD (src + (i - dst)) none else x

/-- The tail of `VecDeque::reserve_exact` after the call to `Storage::grow`
(src/storage_vecdeque.rs lines 180-209): on failure propagate the error; on
success install the new handle and capacity and, if the buffer was not
contiguous before the grow, re-home the trailing run: the new head is
`head.wrapping_sub(old_capacity).wrapping_add(capacity)` and the
`old_capacity - head` trailing slots are copied there. -/
def Deque.applyGrowRehome {T σ H : Type} (es : Nat) (wasContiguous : Bool)
    (oldCapacity : Nat) (d : Deque T σ H) (gr : σ × Except AllocError (H × Nat)) :
    Deque T σ H × Option AllocError :=
  match gr with
  | (s1, .error e) => ({ d with storage := s1 }, some e)
  | (s1, .ok (newHandle, bytes)) =>
    let newCapacity := vecCapFromBytes es bytes
    let buf1 := listResize d.buf newCapacity
    if wasContiguous then
      (⟨newHandle, d.head, d.length, newCapacity, buf1, s1⟩, none)
    else
      let newHead := (d.head + (USIZE - oldCapacity) + newCapacity) % USIZE
      (⟨newHandle, newHead, d.length, newCapacity,
        dequeCopySlots buf1 d.head newHead (oldCapacity - d.head), s1⟩, none)

/-- Model of `VecDeque::reserve_exact` (src/storage_vecdeque.rs lines 166-210):
like `Vec::reserve_exact` but remembering whether the buffer was contiguous
before the grow and re-homing the wrapped run afterwards. -/
def Deque.reserveExact {T σ H : Type} (M : StorageModel σ H) (elemSize elemAlign : Nat)
    (d : Deque T σ H) (extra : Nat) : Deque T σ H × Option AllocError :=
  if USIZE ≤ d.length + extra then (d, some .storageAllocError)
  else
    if d.length + extra < d.capacity then (d, none)
    else
      match layoutArray elemSize elemAlign (d.length + extra) with
      | none => (d, some .storageAllocError)
      | some newLayout =>
        Deque.applyGrowRehome elemSize d.isContiguous d.capacity d
          (M.grow d.storage ⟨d.capacity * elemSize, elemAlign⟩ newLayout d.handle)

/-- The `if let Ok(()) = self.reserve_exact(doubled_capacity)` step of
`VecDeque::reserve`, as for `Vec`. -/
def Deque.reserveSecondTry {T σ H : Type} (M : StorageModel σ H) (elemSize elemAlign : Nat)
    (extra : Nat) (r : Deque T σ H × Option AllocError) : Deque T σ H × Option AllocError :=
  match r with
  | (d1, none) => (d1, none)
  | (d1, some _) => Deque.reserveExact M elemSize elemAlign d1 extra

/-- Model of `VecDeque::reserve` (src/storage_vecdeque.rs lines 215-235):
identical control flow to `Vec::reserve`. -/
def Deque.reserve {T σ H : Type} (M : StorageModel σ H) (elemSize elemAlign : Nat)
    (d : Deque T σ H) (extra : Nat) : Deque T σ H × Option AllocError :=
  if USIZE ≤ d.length + extra then (d, some .storageAllocError)
  else
    if d.length + extra ≤ d.capacity then (d, none)
    else
      if d.capacity * 2 < USIZE then
        if d.length + extra < max (d.capacity * 2) 1 then
          Deque.reserveSecondTry M elemSize elemAlign extra
            (Deque.reserveExact M elemSize elemAlign d (max (d.capacity * 2) 1))
        else Deque.reserveExact M elemSize elemAlign d extra
      else Deque.reserveExact M elemSize elemAlign d extra

/-- Model of `VecDeque::with_capacity_in` (src/storage_vecdeque.rs lines 41-54):
head 0, length 0, capacity derived from the allocated byte count, the buffer
uninitialised. -/
def Deque.withCapacityIn {T σ H : Type} (M : StorageModel σ H) (elemSize elemAlign : Nat)
    (storage : σ) (capacity : Nat) : Except AllocError (Deque T σ H) :=
  match layoutArray elemSize elemAlign capacity with
  | none => .error .storageAllocError
  | some l =>
    let ar := M.allocate storage l
    match ar.2 with
    | .error e => .error e
    | .ok (h, bytes) =>
      .ok ⟨h, 0, 0, vecCapFromBytes elemSize bytes,
        List.replicate (vecCapFromBytes elemSize bytes) none, ar.1⟩

/-- Outcome of a call that may hit a `panic!`-family macro (`todo!`). -/
inductive PanicOr (α : Type) where
  | panicked
  | completed (a : α)
deriving DecidableEq, Repr

/-- Model of `VecDeque::push_back` (src/storage_vecdeque.rs lines 240-248):
reserve one slot, returning the value inside the error on reserve failure;
after a successful reservation the body is `todo!()`, an unconditional
panic. -/
def Deque.pushBack {T σ H : Type} (M : StorageModel σ H) (elemSize elemAlign : Nat)
    (d : Deque T σ H) (value : T) : PanicOr (Deque T σ H × Option (PushError T)) :=
  match Deque.reserve M elemSize elemAlign d 1 with
  | (d1, some e) => .completed (d1, some ⟨value, e⟩)
  | (_, none) => .panicked

/-- Model of `VecDeque::push_front` (src/storage_vecdeque.rs lines 251-259):
same shape as `push_back`, `todo!()` after a successful reservation. -/
def Deque.pushFront {T σ H : Type} (M : StorageModel σ H) (elemSize elemAlign : Nat)
    (d : Deque T σ H) (value : T) : PanicOr (Deque T σ H × Option (PushError T)) :=
  match Deque.reserve M elemSize elemAlign d 1 with
  | (d1, some e) => .completed (d1, some ⟨value, e⟩)
  | (_, none) => .panicked

/-- Claim C4: the spec says `push_back`/`push_front` reserve and then write
the value at the wrap-aware offset, never panicking when the reservation
succeeds.  In the code both bodies are `todo!()` after the reserve: on a
fresh `VecDeque<i32, InlineStorage<[i32; 4]>>` (capacity 4) the reservation
for one element succeeds without any state change, and both `push_back(1)`
and `push_front(1)` panic instead of writing the element. -/
theorem vecdeque_push_todo_panics :
    (Deque.withCapacityIn (inlineModel 16 4) 4 4 () 0
      = .ok (⟨(), 0, 0, 4, List.replicate 4 none, ()⟩ : Deque Int Unit Unit)) ∧
    Deque.reserve (inlineModel 16 4) 4 4
        (⟨(), 0, 0, 4, List.replicate 4 none, ()⟩ : Deque Int Unit Unit) 1
      = (⟨(), 0, 0, 4, List.replicate 4 none, ()⟩, none) ∧
    Deque.pushBack (inlineModel 16 4) 4 4
        (⟨(), 0, 0, 4, List.replicate 4 none, ()⟩ : Deque Int Unit Unit) 1 = .panicked ∧
    Deque.pushFront (inlineModel 16 4) 4 4
        (⟨(), 0, 0, 4, List.replicate 4 none, ()⟩ : Deque Int Unit Unit) 1 = .panicked := by
  refine ⟨?_, ?_, ?_, ?_⟩ <;> decide
